import Mathlib

/-!
Shallow embedding of `assets/code/renderme_360_reader.py` (class `SMCReader`),
a read-only accessor over a hierarchical (HDF5) motion-capture container.

Modelling conventions:
* h5py groups are association lists from key (`String`) to child; keys of an
  HDF5 group are distinct.  Frame-keyed groups use `Nat` keys, standing for
  their decimal-string names (the container stores unpadded decimal strings,
  spec section 6); key comparison goes through `toString`, exactly mirroring
  the Python `str(...)` coercions.
* Python exceptions are an explicit error type `PyErr`; a Python function that
  can also `return None` is modelled with an `Option` in the success type.
* `cv2.imdecode(..., cv2.IMREAD_COLOR)` is an uninterpreted parameter
  `dec : Bytes -> Img3` (a decoded H x W x C uint8 array as nested lists);
  the claims under study only concern payloads that decode successfully.
* Numeric-array payloads that the reader never inspects (calibration
  matrices, keypoint arrays, audio samples) are opaque `List Nat` tokens;
  the reader only passes them through.
* `print` calls (pure logging) and `tqdm` progress bars are not modelled.
-/

deriving instance DecidableEq for Except

/-- Association-list lookup by string key: models `group[key]` and
`key in group.keys()` on an h5py group. -/
def lookupA {α : Type} (l : List (String × α)) (k : String) : Option α :=
  (l.find? (fun p => p.1 == k)).map (fun p => p.2)

/-- Lookup of a frame-keyed child: frame keys are decimal strings of
naturals, modelled as the naturals themselves and compared via `toString`. -/
def lookupF {α : Type} (l : List (Nat × α)) (fid : String) : Option α :=
  (l.find? (fun p => toString p.1 == fid)).map (fun p => p.2)

/-- A Python value passed as a camera / frame identifier: `int` or `str`
(the reader accepts both and coerces with `str(...)` / `int(...)`). -/
inductive PyKey where
  | s : String → PyKey
  | i : Int → PyKey
deriving DecidableEq

/-- Python `str(x)` on a key (ints print without padding, like Python). -/
def pyStr : PyKey → String
  | .s v => v
  | .i n => toString n

/-- Python exceptions raised by the reader, by raise site. -/
inductive PyErr where
  | invalidCameraId : String → PyErr
  | invalidImageType : String → PyErr
  | invalidFrameId : String → PyErr
  | frameIndexOutOfRange : Int → PyErr
  | keyError : String → PyErr
  | stackEmpty : PyErr
  | stackShapeMismatch : PyErr
  | attributeError : PyErr
  | nameError : PyErr
  | valueError : PyErr
  | closedFile : PyErr
deriving DecidableEq

/-- Python `int(x)` on a frame key: identity on ints, decimal parse on
strings (`ValueError` on a non-numeric string). -/
def pyInt : PyKey → Except PyErr Int
  | .i n => .ok n
  | .s v =>
    match v.toInt? with
    | some n => .ok n
    | none => .error .valueError

/-- The `Frame_id` argument: a single index, an explicit list, or `None`. -/
inductive FrameSel where
  | one : PyKey → FrameSel
  | list : List PyKey → FrameSel
  | none : FrameSel

/-- Encoded image payload bytes (opaque). -/
abbrev Bytes := List Nat

/-- A decoded color image: H rows x W pixels x C channel values (uint8). -/
abbrev Img3 := List (List (List Nat))

/-- A single-channel image: H rows x W values. -/
abbrev Img2 := List (List Nat)

/-- An opaque numeric-array payload the reader never inspects. -/
abbrev H5Arr := List Nat

/-- One camera's calibration subtree: matrix-name to array. -/
abbrev Mats := List (String × H5Arr)

/-- The full calibration mapping: camera id to matrix mapping. -/
abbrev Calib := List (String × Mats)

instance : DecidableEq Mats := inferInstance

instance : DecidableEq Calib := inferInstance

/-- The audio dataset stored at `Camera/00/audio`: raw samples plus
sample-rate metadata, stored together and returned unchanged. -/
structure Audio where
  samples : List Nat
  sample_rate : Nat
deriving DecidableEq

/-- A child of `Camera/{cam_id}`: a frame-keyed group of encoded byte blobs
(`color` / `mask`), or the audio dataset (under camera `00`). -/
inductive CamChild where
  | frames : List (Nat × Bytes) → CamChild
  | audioData : Audio → CamChild
deriving DecidableEq

/-- The `Keypoints3d` section: its `num_frame` attribute and the
frame-keyed datasets. -/
structure KP3Section where
  num_frame : Nat
  frames : List (Nat × H5Arr)
deriving DecidableEq

/-- The opened container file: root attribute `performance_part` plus the
four sections the claims exercise. -/
structure SMCFile where
  performance_part : String
  calibration : Calib
  camera : List (String × List (String × CamChild))
  keypoints2d : List (String × List (Nat × H5Arr))
  keypoints3d : KP3Section
deriving DecidableEq

/-- The `SMCReader` object state: `smc` is the h5py handle (`none` once the
file is closed), `calibCache` is `self.__calibration_dict__`, and
`performance_part` is the root attribute copied out in `__init__`. -/
structure Reader where
  smc : Option SMCFile
  calibCache : Option Calib
  performance_part : String
deriving DecidableEq

/-- `'%02d' % n`: decimal with zero padding to two digits. -/
def pad2 (n : Nat) : String :=
  if n < 10 then "0" ++ toString n else toString n

/-- `[f'%02d' % i for i in range(18, 33)]`: the valid 2D-detection cameras. -/
def kp2CamList : List String := (List.range' 18 15).map pad2

/-- Python `s.split('_')[0]`: the characters before the first `'_'`. -/
def firstTok (s : String) : String :=
  String.mk (s.data.takeWhile (fun ch => ch ≠ '_'))

/-- Python `"s" in token` for the one-character needle `"s"`. -/
def hasAudioMarker (s : String) : Bool :=
  (firstTok s).data.any (fun ch => ch = 's')

/-- `np.max(img, 2).astype(np.uint8)`: per-pixel maximum over the channel
axis followed by the uint8 cast (the two numpy steps composed pointwise). -/
def maskCollapse (img : Img3) : Img2 :=
  img.map (fun row => row.map (fun px => (px.foldl max 0) % 256))

/-- numpy shape of a 3-D nested-list array (dimensions read off the first
elements, as `np.asarray` does for well-formed arrays). -/
def img3Shape (a : Img3) : List Nat :=
  [a.length, (a.headD []).length, ((a.headD []).headD []).length]

/-- numpy shape of a 2-D nested-list array. -/
def img2Shape (a : Img2) : List Nat :=
  [a.length, (a.headD []).length]

/-- A single image returned by `get_img`: 3-D color or 2-D mask. -/
inductive SingleImg where
  | color : Img3 → SingleImg
  | mask : Img2 → SingleImg
deriving DecidableEq

/-- A result of `get_img`: a single image, or an `np.stack`ed batch with a
new leading axis. -/
inductive ImgRes where
  | single : SingleImg → ImgRes
  | batchColor : List Img3 → ImgRes
  | batchMask : List Img2 → ImgRes
deriving DecidableEq

/-- Collect the tail of an `np.stack` argument list as color images of the
shape of the head; `none` models numpy's shape/ndim mismatch error. -/
def stackColors (a : Img3) : List SingleImg → Option (List Img3)
  | [] => some []
  | .color b :: rest =>
    if img3Shape b = img3Shape a then (stackColors a rest).map (fun l => b :: l)
    else none
  | .mask _ :: _ => none

/-- Collect the tail of an `np.stack` argument list as mask images of the
shape of the head. -/
def stackMasks (a : Img2) : List SingleImg → Option (List Img2)
  | [] => some []
  | .mask b :: rest =>
    if img2Shape b = img2Shape a then (stackMasks a rest).map (fun l => b :: l)
    else none
  | .color _ :: _ => none

/-- `np.stack(rs, axis=0)` over the per-frame image results: `ValueError`
on the empty list, error on mismatched shapes, otherwise a batch with a new
leading axis. -/
def npStackImg : List SingleImg → Except PyErr ImgRes
  | [] => .error .stackEmpty
  | .color a :: rest =>
    match stackColors a rest with
    | some bs => .ok (.batchColor (a :: bs))
    | none => .error .stackShapeMismatch
  | .mask a :: rest =>
    match stackMasks a rest with
    | some bs => .ok (.batchMask (a :: bs))
    | none => .error .stackShapeMismatch

/-- `np.stack` over opaque keypoint arrays: `ValueError` on the empty list
(the opaque payloads carry no shape to compare). -/
def npStackK {α : Type} (l : List α) : Except PyErr (List α) :=
  match l with
  | [] => .error .stackEmpty
  | _ => .ok l

/-- The `i`-th slice of a stacked batch (along the new leading axis). -/
def sliceOf : ImgRes → Nat → Option SingleImg
  | .single _, _ => none
  | .batchColor l, i => (l[i]?).map .color
  | .batchMask l, i => (l[i]?).map .mask

/-- The leading-axis length of a stacked batch. -/
def batchLen : ImgRes → Option Nat
  | .single _ => none
  | .batchColor l => some l.length
  | .batchMask l => some l.length

/-- `sorted([int(k) for k in keys()])`: the ascending reordering of the
numeric frame keys (Python's sort and insertion sort agree on naturals). -/
def sortedIds (fl : List (Nat × Bytes)) : List Nat :=
  List.insertionSort (fun a b => a ≤ b) (fl.map (fun p => p.1))

/-- The batch loop `rs = []; for fi in Frame_id_list: rs.append(g(fi))`:
apply `g` to each element in order, aborting at the first exception
(fail-fast, no partial batch). -/
def mapE {α β : Type} (g : α → Except PyErr β) : List α → Except PyErr (List β)
  | [] => .ok []
  | x :: xs =>
    match g x with
    | .error e => .error e
    | .ok b =>
      match mapE g xs with
      | .error e => .error e
      | .ok bs => .ok (b :: bs)

/-- `get_img` on a scalar `Frame_id` (the branch lines 114-126; the batch
branch re-enters here through `self.get_img(Camera_id, Image_type, fi)`).
Validation order follows the code: camera id, image type, frame key, then
decode. An `Image_type` outside `color`/`mask` leaves `img_color` unbound
(`NameError` at the `return`). -/
def get_img_single (dec : Bytes → Img3) (f : SMCFile)
    (Camera_id : PyKey) (Image_type : String) (k : PyKey) :
    Except PyErr SingleImg :=
  let cid := pyStr Camera_id
  match lookupA f.camera cid with
  | none => .error (.invalidCameraId cid)
  | some cam =>
    match lookupA cam Image_type with
    | none => .error (.invalidImageType Image_type)
    | some child =>
      match child with
      | .audioData _ => .error .attributeError
      | .frames fl =>
        let fid := pyStr k
        match lookupF fl fid with
        | none => .error (.invalidFrameId fid)
        | some bs =>
          if Image_type = "color" ∨ Image_type = "mask" then
            let img := dec bs
            if Image_type = "mask" then .ok (.mask (maskCollapse img))
            else .ok (.color img)
          else .error .nameError

/-- `SMCReader.get_img` (lines 97-135): scalar selector decodes one frame;
`None` decodes every stored frame in ascending numeric key order; an
explicit list decodes in caller order; batches are `np.stack`ed. -/
def get_img (dec : Bytes → Img3) (f : SMCFile)
    (Camera_id : PyKey) (Image_type : String) (Frame_id : FrameSel) :
    Except PyErr ImgRes :=
  let cid := pyStr Camera_id
  match lookupA f.camera cid with
  | none => .error (.invalidCameraId cid)
  | some cam =>
    match lookupA cam Image_type with
    | none => .error (.invalidImageType Image_type)
    | some child =>
      match Frame_id with
      | .one k => (get_img_single dec f Camera_id Image_type k).map .single
      | .none =>
        match child with
        | .audioData _ => .error .attributeError
        | .frames fl =>
          match mapE
              (fun n : Nat => get_img_single dec f Camera_id Image_type (.i (Int.ofNat n)))
              (sortedIds fl) with
          | .error e => .error e
          | .ok rs => npStackImg rs
      | .list L =>
        match mapE (fun fi => get_img_single dec f Camera_id Image_type fi) L with
        | .error e => .error e
        | .ok rs => npStackImg rs

/-- `SMCReader.get_audio` (lines 137-149): the naming-convention check on
the cached `performance_part` runs before any container access; with the
marker present, the object stored at `Camera/00/audio` is returned
unchanged (no decoding). -/
def get_audio (r : Reader) : Except PyErr (Option CamChild) :=
  if hasAudioMarker r.performance_part = false then .ok none
  else
    match r.smc with
    | none => .error .closedFile
    | some f =>
      match lookupA f.camera "00" with
      | none => .error (.keyError "00")
      | some cam00 =>
        match lookupA cam00 "audio" with
        | none => .error (.keyError "audio")
        | some d => .ok (some d)

/-- A result of `get_Keypoints2d`: the single-frame dataset handle, the
whole camera subtree (an h5py group, returned by the `None` branch), or an
`np.stack`ed batch. -/
inductive KP2Res where
  | dataset : H5Arr → KP2Res
  | group : List (Nat × H5Arr) → KP2Res
  | stack : List H5Arr → KP2Res
deriving DecidableEq

/-- `np.asarray` on an element of the batch list: the recursive call only
returns `None` when the camera subtree is absent, which the enclosing call
has already excluded, so the `none` branch is unreachable (it stands for
numpy's 0-d object array over `None`). -/
def optToArr : Option H5Arr → H5Arr
  | some a => a
  | none => []

/-- `get_Keypoints2d` on a scalar `Frame_id` (the branch lines 165-174; the
batch branch re-enters here through `self.get_Keypoints2d(Camera_id, fi)`).
The bounds assert in the source is commented out; a missing frame key
raises h5py's `KeyError`. -/
def get_Keypoints2d_single (f : SMCFile) (Camera_id : PyKey) (k : PyKey) :
    Except PyErr (Option H5Arr) :=
  let cid := pyStr Camera_id
  if cid ∈ kp2CamList then
    match lookupA f.keypoints2d cid with
    | none => .ok none
    | some sub =>
      let fid := pyStr k
      match lookupF sub fid with
      | some v => .ok (some v)
      | none => .error (.keyError fid)
  else .error (.invalidCameraId cid)

/-- `SMCReader.get_Keypoints2d` (lines 152-183): camera id must be one of
`'18'..'32'`; an in-range camera with no subtree returns `None` (printed
notice, not an error); scalar selector returns the stored dataset; `None`
selector returns the whole camera subtree (the h5py group object itself);
a list selector stacks the per-frame results in caller order. -/
def get_Keypoints2d (f : SMCFile) (Camera_id : PyKey) (Frame_id : FrameSel) :
    Except PyErr (Option KP2Res) :=
  let cid := pyStr Camera_id
  if cid ∈ kp2CamList then
    match lookupA f.keypoints2d cid with
    | none => .ok none
    | some sub =>
      match Frame_id with
      | .one k => (get_Keypoints2d_single f Camera_id k).map (fun o => o.map .dataset)
      | .none => .ok (some (.group sub))
      | .list L =>
        match mapE (fun fi => get_Keypoints2d_single f Camera_id fi) L with
        | .error e => .error e
        | .ok rs => (npStackK (rs.map optToArr)).map (fun l => some (.stack l))
  else .error (.invalidCameraId cid)

/-- A result of `get_Keypoints3d`: the single-frame dataset handle, the
whole `Keypoints3d` section (h5py group, returned by the `None` branch), or
an `np.stack`ed batch. -/
inductive KP3Res where
  | dataset : H5Arr → KP3Res
  | group : KP3Section → KP3Res
  | stack : List H5Arr → KP3Res
deriving DecidableEq

/-- `get_Keypoints3d` on a scalar `Frame_id` (lines 196-200; the batch
branch re-enters here through `self.get_Keypoints3d(fi)`): `int(...)`
coercion, then the bounds assert against the `num_frame` attribute, then
the keyed read. -/
def get_Keypoints3d_single (kp3 : KP3Section) (k : PyKey) :
    Except PyErr H5Arr :=
  match pyInt k with
  | .error e => .error e
  | .ok i =>
    if 0 ≤ i ∧ i < (kp3.num_frame : Int) then
      match lookupF kp3.frames (toString i) with
      | some v => .ok v
      | none => .error (.keyError (toString i))
    else .error (.frameIndexOutOfRange i)

/-- `SMCReader.get_Keypoints3d` (lines 186-209): scalar selector validates
bounds then reads; `None` returns the whole section group with no
validation; a list selector applies the scalar path to each element and
stacks the results. -/
def get_Keypoints3d (kp3 : KP3Section) : FrameSel → Except PyErr KP3Res
  | .one k => (get_Keypoints3d_single kp3 k).map .dataset
  | .none => .ok (.group kp3)
  | .list L =>
    match mapE (fun fi => get_Keypoints3d_single kp3 fi) L with
    | .error e => .error e
    | .ok rs => (npStackK rs).map .stack

/-- The inner loop of `get_Calibration` (lines 87-89): `rs[k] = ...[k][()]`
for `k` in `['D', 'K', 'RT']`, read fresh from the container; a missing
matrix key raises h5py's `KeyError`. -/
def readMats (mats : Mats) : List String → Except PyErr Mats
  | [] => .ok []
  | mt :: rest =>
    match lookupA mats mt with
    | none => .error (.keyError mt)
    | some v => (readMats mats rest).map (fun l => (mt, v) :: l)

/-- `SMCReader.get_Calibration` (lines 75-90): `str(...)` coercion (no zero
padding), the membership assert against `Calibration`, then three fresh
matrix reads (independent of the get-all cache). -/
def get_Calibration (f : SMCFile) (Camera_id : PyKey) : Except PyErr Mats :=
  let cid := pyStr Camera_id
  match lookupA f.calibration cid with
  | none => .error (.invalidCameraId cid)
  | some mats => readMats mats ["D", "K", "RT"]

/-- The inner loop of `get_Calibration_all` (lines 70-72): fill one
camera's matrix dict key by key; on a missing key the partial inner dict
built so far remains (the assignments already made are kept). -/
def matLoop (mats : Mats) : List String → Mats → Mats × Option PyErr
  | [], acc => (acc, none)
  | mt :: rest, acc =>
    match lookupA mats mt with
    | some v => matLoop mats rest (acc ++ [(mt, v)])
    | none => (acc, some (.keyError mt))

/-- The outer loop of `get_Calibration_all` (lines 68-72): walk the camera
subtrees in key order, mutating `self.__calibration_dict__` in place; a
failure stops the walk and keeps everything already inserted. -/
def calibLoop : Calib → Calib → Calib × Option PyErr
  | [], acc => (acc, none)
  | (ci, mats) :: rest, acc =>
    match matLoop mats ["D", "K", "RT"] [] with
    | (inner, none) => calibLoop rest (acc ++ [(ci, inner)])
    | (inner, some e) => (acc ++ [(ci, inner)], some e)

/-- `SMCReader.get_Calibration_all` (lines 50-73): return the cache when it
is already populated; otherwise assign a fresh dict to
`self.__calibration_dict__` *before* walking the container (so the dict
built so far is retained on any failure, including on a closed file),
then materialize every camera's `D`/`K`/`RT`. -/
def get_Calibration_all : Reader → Except PyErr Calib × Reader
  | ⟨smcv, some c, pp⟩ => (.ok c, ⟨smcv, some c, pp⟩)
  | ⟨none, none, pp⟩ => (.error .closedFile, ⟨none, some [], pp⟩)
  | ⟨some f, none, pp⟩ =>
    match calibLoop f.calibration [] with
    | (acc, none) => (.ok acc, ⟨some f, some acc, pp⟩)
    | (acc, some e) => (.error e, ⟨some f, some acc, pp⟩)

/-- All three matrix keys are present in a camera's calibration subtree. -/
def matsKeysOkB (mats : Mats) : Bool :=
  ["D", "K", "RT"].all (fun mt => (lookupA mats mt).isSome)

/-- Every camera subtree under `Calibration` carries `D`, `K` and `RT`
(materialization cannot fail). -/
def calibOkB (cal : Calib) : Bool :=
  cal.all (fun e => matsKeysOkB e.2)

/-- A candidate cache value `c` is complete for the calibration section
`cal`: every camera under `Calibration` is present in `c` with all three
matrix keys. -/
def calibComplete (cal : Calib) (c : Calib) : Bool :=
  cal.all (fun e =>
    match lookupA c e.1 with
    | some inner => matsKeysOkB inner
    | none => false)

/-- The fully materialized matrix dict of one camera. -/
def fullMats (mats : Mats) : Mats :=
  ["D", "K", "RT"].filterMap (fun mt => (lookupA mats mt).map (fun v => (mt, v)))

/-- The fully materialized calibration mapping. -/
def fullCalib (cal : Calib) : Calib :=
  cal.map (fun e => (e.1, fullMats e.2))

/-! ### Concrete container data used as witness inputs -/

/-- A decode function used in witnesses: a 1 x 1 x 3 uint8-ish image whose
first channel is the first payload byte. -/
def decEx : Bytes → Img3 := fun bs => [[[bs.headD 0, 7, 300]]]

/-- Children of camera `00` in the witness container. -/
def camEx : List (String × CamChild) :=
  [("color", .frames [(0, [10]), (1, [20])]),
   ("mask", .frames [(1, [40]), (0, [30])]),
   ("audio", .audioData ⟨[1, 2, 3], 48000⟩)]

/-- Calibration section of the witness container (every camera complete). -/
def calEx : Calib :=
  [("05", [("D", [1]), ("K", [2]), ("RT", [3])]),
   ("12", [("D", [4]), ("K", [5]), ("RT", [6])])]

/-- The witness container. -/
def fEx : SMCFile :=
  { performance_part := "s1_all"
    calibration := calEx
    camera := [("00", camEx)]
    keypoints2d := [("18", [(0, [1, 2]), (1, [3, 4])])]
    keypoints3d := ⟨2, [(0, [5]), (1, [6])]⟩ }

/-- A freshly opened reader over the witness container. -/
def rEx : Reader := { smc := some fEx, calibCache := none, performance_part := "s1_all" }

/-- A reader whose performance part carries no audio marker and whose
container is already closed. -/
def rNoAudio : Reader := { smc := none, calibCache := none, performance_part := "e_radvani1" }

/-- A container whose camera `01` calibration subtree is missing `K` and
`RT`: materialization of the full calibration mapping fails on it. -/
def fBroken : SMCFile :=
  { performance_part := "e_x"
    calibration := [("00", [("D", [0]), ("K", [1]), ("RT", [2])]), ("01", [("D", [3])])]
    camera := []
    keypoints2d := []
    keypoints3d := ⟨0, []⟩ }

/-- A freshly opened reader over the broken container. -/
def rBroken : Reader := { smc := some fBroken, calibCache := none, performance_part := "e_x" }

/-- The partial mapping `get_Calibration_all` leaves behind on `fBroken`:
camera `01` holds only its `D` entry. -/
def calPartialEx : Calib :=
  [("00", [("D", [0]), ("K", [1]), ("RT", [2])]), ("01", [("D", [3])])]

/-! ### Helper lemmas -/

theorem mapE_ok_length {α β : Type} {g : α → Except PyErr β} :
    ∀ {xs : List α} {ys : List β}, mapE g xs = .ok ys → ys.length = xs.length := by
  intro xs
  induction xs with
  | nil => intro ys h; simp [mapE] at h; simp [← h]
  | cons x xs ih =>
    intro ys h
    simp only [mapE] at h
    cases hx : g x with
    | error e => rw [hx] at h; exact absurd h (by simp)
    | ok b =>
      rw [hx] at h
      cases hxs : mapE g xs with
      | error e => rw [hxs] at h; exact absurd h (by simp)
      | ok bs =>
        rw [hxs] at h
        cases h
        simp [ih hxs]

theorem mapE_ok_getD {α β : Type} {g : α → Except PyErr β} (d : α) (e : β) :
    ∀ {xs : List α} {ys : List β}, mapE g xs = .ok ys →
      ∀ i, i < xs.length → g (xs.getD i d) = .ok (ys.getD i e) := by
  intro xs
  induction xs with
  | nil => intro ys _ i hi; exact absurd hi (by simp)
  | cons x xs ih =>
    intro ys h i hi
    simp only [mapE] at h
    cases hx : g x with
    | error e' => rw [hx] at h; exact absurd h (by simp)
    | ok b =>
      rw [hx] at h
      cases hxs : mapE g xs with
      | error e' => rw [hxs] at h; exact absurd h (by simp)
      | ok bs =>
        rw [hxs] at h
        cases h
        cases i with
        | zero => simpa using hx
        | succ j => exact ih hxs j (by simpa using hi)

theorem mapE_cons_error {α β : Type} {g : α → Except PyErr β} {x : α} {xs : List α}
    {e : PyErr} (h : g x = .error e) : mapE g (x :: xs) = .error e := by
  simp [mapE, h]

theorem stackColors_eq {a : Img3} :
    ∀ {rest : List SingleImg} {bs : List Img3},
      stackColors a rest = some bs → rest = bs.map SingleImg.color := by
  intro rest
  induction rest with
  | nil => intro bs h; simp [stackColors] at h; simp [← h]
  | cons r rest ih =>
    intro bs h
    cases r with
    | color b =>
      simp only [stackColors] at h
      by_cases hs : img3Shape b = img3Shape a
      · rw [if_pos hs] at h
        cases hrest : stackColors a rest with
        | none => rw [hrest] at h; exact absurd h (by simp)
        | some cs =>
          rw [hrest] at h
          simp only [Option.map_some'] at h
          cases h
          simp [ih hrest]
      · rw [if_neg hs] at h; exact absurd h (by simp)
    | mask b => exact absurd h (by simp [stackColors])

theorem stackMasks_eq {a : Img2} :
    ∀ {rest : List SingleImg} {bs : List Img2},
      stackMasks a rest = some bs → rest = bs.map SingleImg.mask := by
  intro rest
  induction rest with
  | nil => intro bs h; simp [stackMasks] at h; simp [← h]
  | cons r rest ih =>
    intro bs h
    cases r with
    | mask b =>
      simp only [stackMasks] at h
      by_cases hs : img2Shape b = img2Shape a
      · rw [if_pos hs] at h
        cases hrest : stackMasks a rest with
        | none => rw [hrest] at h; exact absurd h (by simp)
        | some cs =>
          rw [hrest] at h
          simp only [Option.map_some'] at h
          cases h
          simp [ih hrest]
      · rw [if_neg hs] at h; exact absurd h (by simp)
    | color b => exact absurd h (by simp [stackMasks])

theorem npStackImg_ok {rs : List SingleImg} {res : ImgRes}
    (h : npStackImg rs = .ok res) :
    (∃ l, res = .batchColor l ∧ rs = l.map SingleImg.color) ∨
    (∃ l, res = .batchMask l ∧ rs = l.map SingleImg.mask) := by
  cases rs with
  | nil => exact absurd h (by simp [npStackImg])
  | cons r rest =>
    cases r with
    | color a =>
      simp only [npStackImg] at h
      cases hs : stackColors a rest with
      | none => rw [hs] at h; exact absurd h (by simp)
      | some bs =>
        rw [hs] at h
        cases h
        exact Or.inl ⟨a :: bs, rfl, by simp [stackColors_eq hs]⟩
    | mask a =>
      simp only [npStackImg] at h
      cases hs : stackMasks a rest with
      | none => rw [hs] at h; exact absurd h (by simp)
      | some bs =>
        rw [hs] at h
        cases h
        exact Or.inr ⟨a :: bs, rfl, by simp [stackMasks_eq hs]⟩

theorem mapE_ok_get {α β : Type} {g : α → Except PyErr β} :
    ∀ {xs : List α} {ys : List β}, mapE g xs = .ok ys →
      ∀ (i : Nat) (x : α), xs[i]? = some x → ∃ y : β, ys[i]? = some y ∧ g x = .ok y := by
  intro xs
  induction xs with
  | nil => intro ys _ i x hx; simp at hx
  | cons a xs ih =>
    intro ys h i x hx
    simp only [mapE] at h
    cases ha : g a with
    | error e => rw [ha] at h; exact absurd h (by simp)
    | ok b =>
      rw [ha] at h
      cases hxs : mapE g xs with
      | error e => rw [hxs] at h; exact absurd h (by simp)
      | ok bs =>
        rw [hxs] at h
        cases h
        cases i with
        | zero =>
          simp only [List.getElem?_cons_zero, Option.some.injEq] at hx
          exact ⟨b, by simp, by rw [← hx]; exact ha⟩
        | succ j =>
          simp only [List.getElem?_cons_succ] at hx ⊢
          exact ih hxs j x hx

theorem lookupA_mem {α : Type} {l : List (String × α)} {k : String} {v : α}
    (h : lookupA l k = some v) : ∃ p ∈ l, p.2 = v := by
  simp only [lookupA] at h
  cases hf : l.find? (fun p => p.1 == k) with
  | none => rw [hf] at h; simp at h
  | some p =>
    rw [hf] at h
    simp only [Option.map_some', Option.some.injEq] at h
    exact ⟨p, List.mem_of_find?_eq_some hf, h⟩

theorem lookupA_fullCalib (cal : Calib) (k : String) :
    lookupA (fullCalib cal) k = (lookupA cal k).map fullMats := by
  simp only [lookupA, fullCalib, List.find?_map, Option.map_map]
  rfl

theorem matsKeysOkB_of_calibOkB {cal : Calib} {p : String × Mats}
    (hok : calibOkB cal = true) (hp : p ∈ cal) : matsKeysOkB p.2 = true := by
  simp only [calibOkB, List.all_eq_true] at hok
  exact hok p hp

theorem matsKeysOkB_fullMats {mats : Mats} (h : matsKeysOkB mats = true) :
    matsKeysOkB (fullMats mats) = true := by
  simp only [matsKeysOkB, List.all_eq_true, List.mem_cons, List.not_mem_nil] at h
  obtain ⟨d, hd⟩ := Option.isSome_iff_exists.mp (h "D" (by simp))
  obtain ⟨k0, hk⟩ := Option.isSome_iff_exists.mp (h "K" (by simp))
  obtain ⟨rt, hrt⟩ := Option.isSome_iff_exists.mp (h "RT" (by simp))
  have hfm : fullMats mats = [("D", d), ("K", k0), ("RT", rt)] := by
    simp [fullMats, hd, hk, hrt]
  rw [hfm]
  rfl

theorem matLoop_ok {mats : Mats} :
    ∀ {ks : List String} {acc : Mats},
      (∀ mt ∈ ks, (lookupA mats mt).isSome) →
      matLoop mats ks acc =
        (acc ++ ks.filterMap (fun mt => (lookupA mats mt).map (fun v => (mt, v))), none) := by
  intro ks
  induction ks with
  | nil => intro acc _; simp [matLoop]
  | cons mt rest ih =>
    intro acc hok
    obtain ⟨v, hv⟩ := Option.isSome_iff_exists.mp (hok mt (by simp))
    simp only [matLoop, hv]
    rw [ih (fun x hx => hok x (by simp [hx]))]
    simp [hv]

theorem matLoop_full {mats : Mats} (hok : matsKeysOkB mats = true) :
    matLoop mats ["D", "K", "RT"] [] = (fullMats mats, none) := by
  simp only [matsKeysOkB, List.all_eq_true] at hok
  rw [matLoop_ok (fun mt hmt => hok mt hmt)]
  rfl

theorem calibLoop_ok {cal : Calib} :
    ∀ {acc : Calib}, calibOkB cal = true →
      calibLoop cal acc = (acc ++ fullCalib cal, none) := by
  induction cal with
  | nil => intro acc _; simp [calibLoop, fullCalib]
  | cons e rest ih =>
    intro acc hok
    obtain ⟨ci, mats⟩ := e
    simp only [calibOkB, List.all_cons, Bool.and_eq_true] at hok
    simp only [calibLoop]
    rw [matLoop_full hok.1]
    show calibLoop rest (acc ++ [(ci, fullMats mats)]) = _
    rw [ih (by simp [calibOkB, hok.2])]
    simp [fullCalib]

theorem readMats_ok {mats : Mats} :
    ∀ {ks : List String},
      (∀ mt ∈ ks, (lookupA mats mt).isSome) →
      readMats mats ks =
        .ok (ks.filterMap (fun mt => (lookupA mats mt).map (fun v => (mt, v)))) := by
  intro ks
  induction ks with
  | nil => intro _; simp [readMats]
  | cons mt rest ih =>
    intro hok
    obtain ⟨v, hv⟩ := Option.isSome_iff_exists.mp (hok mt (by simp))
    simp only [readMats, hv]
    rw [ih (fun x hx => hok x (by simp [hx]))]
    simp [hv, Except.map]

theorem fullCalib_complete {cal : Calib} (hok : calibOkB cal = true) :
    calibComplete cal (fullCalib cal) = true := by
  simp only [calibComplete, List.all_eq_true]
  intro e he
  rw [lookupA_fullCalib]
  cases hl : lookupA cal e.1 with
  | none =>
    exfalso
    simp only [lookupA] at hl
    have : (cal.find? (fun p => p.1 == e.1)).isSome := by
      rw [List.find?_isSome]
      exact ⟨e, he, by simp⟩
    cases hf : cal.find? (fun p => p.1 == e.1) with
    | none => rw [hf] at this; simp at this
    | some p => rw [hf] at hl; simp at hl
  | some mats =>
    obtain ⟨p, hp, hpv⟩ := lookupA_mem hl
    simp only [Option.map_some']
    exact matsKeysOkB_fullMats (hpv ▸ matsKeysOkB_of_calibOkB hok hp)

/-! ### Claims -/

/-- C3: `get_Calibration_all` called twice returns equal mappings; the
second call is a pure cache hit that performs no container access, so it
still succeeds (with the same mapping and unchanged state) even if the
underlying container is closed between the two calls. -/
theorem get_Calibration_all_cache_hit (r : Reader) (c : Calib) (r1 : Reader)
    (h : get_Calibration_all r = (.ok c, r1)) :
    get_Calibration_all { r1 with smc := none } = (.ok c, { r1 with smc := none }) := by
  obtain ⟨smcv, cache, pp⟩ := r
  have hcache : r1.calibCache = some c := by
    cases cache with
    | some c0 =>
      simp only [get_Calibration_all, Prod.mk.injEq, Except.ok.injEq] at h
      rw [← h.2, h.1]
    | none =>
      cases smcv with
      | none => simp [get_Calibration_all] at h
      | some f =>
        simp only [get_Calibration_all] at h
        cases hl : calibLoop f.calibration [] with
        | mk acc err =>
          rw [hl] at h
          cases err with
          | none =>
            simp only [Prod.mk.injEq, Except.ok.injEq] at h
            rw [← h.2, h.1]
          | some e => simp at h
  obtain ⟨s1, c1, p1⟩ := r1
  simp only at hcache
  subst hcache
  simp [get_Calibration_all]

/-- C3 witness: over the concrete container `fEx`, the first call
materializes `calEx` and the second call, after closing the file, returns
the same mapping. -/
theorem get_Calibration_all_cache_hit_witness :
    get_Calibration_all rEx = (.ok calEx, ⟨some fEx, some calEx, "s1_all"⟩) ∧
    get_Calibration_all ⟨none, some calEx, "s1_all"⟩ =
      (.ok calEx, ⟨none, some calEx, "s1_all"⟩) :=
  ⟨by decide,
   get_Calibration_all_cache_hit rEx calEx ⟨some fEx, some calEx, "s1_all"⟩ (by decide)⟩

/-- C4 counterexample: on `fBroken` (camera `01` lacks `K` and `RT`) the
first `get_Calibration_all` call fails with `KeyError` but leaves
`self.__calibration_dict__` holding a partial mapping (camera `01` with
only `D`), which the second call returns as if complete — refuting the
claim that a failure during materialization may not leave a partial
mapping that later calls return. -/
theorem calib_cache_partial_counterexample :
    (get_Calibration_all rBroken).1 = .error (.keyError "K") ∧
    (get_Calibration_all rBroken).2.calibCache = some calPartialEx ∧
    calibComplete fBroken.calibration calPartialEx = false ∧
    (get_Calibration_all (get_Calibration_all rBroken).2).1 = .ok calPartialEx := by
  decide

/-- C4 amended: the calibration cache is all-or-nothing provided
materialization cannot fail (every camera subtree under `Calibration`
carries all of `D`, `K`, `RT`): starting from an empty or
completely-populated cache, a `get_Calibration_all` call returns a
complete mapping and leaves the cache holding exactly that complete
mapping.  (When materialization fails mid-walk the code instead leaves a
partial mapping that later calls return as if complete, as the
counterexample shows.) -/
theorem calib_cache_all_or_nothing (r : Reader) (f : SMCFile)
    (hf : r.smc = some f) (hok : calibOkB f.calibration = true)
    (hcache : r.calibCache = none ∨ r.calibCache = some (fullCalib f.calibration)) :
    ∃ c : Calib,
      (get_Calibration_all r).1 = .ok c ∧
      (get_Calibration_all r).2.calibCache = some c ∧
      calibComplete f.calibration c = true := by
  obtain ⟨smcv, cache, pp⟩ := r
  simp only at hf hcache
  subst hf
  refine ⟨fullCalib f.calibration, ?_⟩
  cases hcache with
  | inl hnone =>
    subst hnone
    simp [get_Calibration_all, calibLoop_ok hok, fullCalib_complete hok]
  | inr hsome =>
    subst hsome
    exact ⟨rfl, rfl, fullCalib_complete hok⟩

/-- C4 witness: the amended invariant evaluated on the concrete reader
`rEx` (complete calibration section, empty cache). -/
theorem calib_cache_all_or_nothing_witness :
    calibOkB fEx.calibration = true ∧
    (∃ c : Calib,
      (get_Calibration_all rEx).1 = .ok c ∧
      (get_Calibration_all rEx).2.calibCache = some c ∧
      calibComplete fEx.calibration c = true) :=
  ⟨by decide, calib_cache_all_or_nothing rEx fEx rfl (by decide) (Or.inl rfl)⟩

/-- C5 counterexample: `get_Calibration` coerces with plain `str(...)`,
not zero padding: for the integer `5` it addresses camera `"5"` and fails
with the invalid-camera error even though camera `"05"` is present under
`Calibration` (and addressable by its string form), refuting the claimed
`"0n"` coercion for single-digit integers. -/
theorem get_Calibration_no_zero_pad_counterexample :
    get_Calibration fEx (.i 5) = .error (.invalidCameraId "5") ∧
    lookupA fEx.calibration "05" = some [("D", [1]), ("K", [2]), ("RT", [3])] ∧
    get_Calibration fEx (.s "05") = .ok [("D", [1]), ("K", [2]), ("RT", [3])] := by
  decide

/-- C5 amended: `get_Calibration` coerces its argument with plain string
conversion (no zero padding, so a single-digit integer addresses a
one-digit key that zero-padded containers do not contain); it fails with
the invalid-camera error exactly when the coerced id is absent under
`Calibration`, and for a present id returns the same `{D, K, RT}` values
as the corresponding entry of `get_Calibration_all`, read fresh from the
container (the reader's cache plays no part in `get_Calibration`). -/
theorem get_Calibration_amended (f : SMCFile) (r : Reader) (C : PyKey) (mats : Mats)
    (hr : r.smc = some f) (hcache : r.calibCache = none)
    (hok : calibOkB f.calibration = true)
    (hmem : lookupA f.calibration (pyStr C) = some mats) :
    get_Calibration f C = .ok (fullMats mats) ∧
    (get_Calibration_all r).1 = .ok (fullCalib f.calibration) ∧
    lookupA (fullCalib f.calibration) (pyStr C) = some (fullMats mats) ∧
    (∀ C' : PyKey, lookupA f.calibration (pyStr C') = none →
      get_Calibration f C' = .error (.invalidCameraId (pyStr C'))) := by
  have hkeys : matsKeysOkB mats = true := by
    obtain ⟨p, hp, hpv⟩ := lookupA_mem hmem
    exact hpv ▸ matsKeysOkB_of_calibOkB hok hp
  refine ⟨?_, ?_, ?_, ?_⟩
  · simp only [get_Calibration, hmem]
    simp only [matsKeysOkB, List.all_eq_true] at hkeys
    rw [readMats_ok (fun mt hmt => hkeys mt hmt)]
    rfl
  · obtain ⟨smcv, cache, pp⟩ := r
    simp only at hr hcache
    subst hr
    subst hcache
    simp [get_Calibration_all, calibLoop_ok hok]
  · rw [lookupA_fullCalib, hmem]
    rfl
  · intro C' hC'
    simp only [get_Calibration, hC']

/-- C5 witness: the amended statement at camera id `12` (an integer whose
string form is already the stored key) of the concrete container. -/
theorem get_Calibration_amended_witness :
    get_Calibration fEx (.i 12) = .ok [("D", [4]), ("K", [5]), ("RT", [6])] ∧
    (get_Calibration_all rEx).1 = .ok (fullCalib fEx.calibration) := by
  have h := get_Calibration_amended fEx rEx (.i 12) [("D", [4]), ("K", [5]), ("RT", [6])]
    rfl rfl (by decide) (by decide)
  exact ⟨h.1, h.2.1⟩

/-- C6 counterexample: the explicit-list path of `get_Keypoints3d` does
validate bounds — each list element is fed back through the single-index
path, so the list `[1]` on a section with `num_frame = 1` fails with the
frame-index bounds error, refuting the claim that the explicit-list path
applies no bounds validation at all. -/
theorem kp3_bounds_counterexample :
    get_Keypoints3d ⟨1, [(0, [7])]⟩ (.list [.i 1]) = .error (.frameIndexOutOfRange 1) ∧
    get_Keypoints3d ⟨1, [(0, [7])]⟩ (.one (.i 1)) = .error (.frameIndexOutOfRange 1) := by
  decide

/-- C6 amended: `get_Keypoints3d` validates bounds on the single-index
path — an integer index `i` fails with the frame-index bounds error
exactly when `i < 0` or `i >= num_frame`, and an in-bounds index whose
frame key is stored succeeds — while the omitted-selector path applies no
validation at all (it returns the whole section group); the explicit-list
path, however, validates bounds element-wise by re-entering the
single-index path, so it is not validation-free as claimed. -/
theorem kp3_bounds_amended (kp3 : KP3Section) :
    (∀ i : Int, get_Keypoints3d kp3 (.one (.i i)) = .error (.frameIndexOutOfRange i) ↔
      (i < 0 ∨ (kp3.num_frame : Int) ≤ i)) ∧
    (get_Keypoints3d kp3 .none = .ok (.group kp3)) ∧
    (∀ (k : PyKey) (rest : List PyKey) (e : PyErr),
      get_Keypoints3d_single kp3 k = .error e →
      get_Keypoints3d kp3 (.list (k :: rest)) = .error e) ∧
    (∀ (i : Int) (v : H5Arr), 0 ≤ i → i < (kp3.num_frame : Int) →
      lookupF kp3.frames (toString i) = some v →
      get_Keypoints3d kp3 (.one (.i i)) = .ok (.dataset v)) := by
  refine ⟨?_, rfl, ?_, ?_⟩
  · intro i
    constructor
    · intro h
      by_cases hin : 0 ≤ i ∧ i < (kp3.num_frame : Int)
      · exfalso
        simp only [get_Keypoints3d, get_Keypoints3d_single, pyInt] at h
        rw [if_pos hin] at h
        cases hl : lookupF kp3.frames (toString i) with
        | some v => rw [hl] at h; simp [Except.map] at h
        | none => rw [hl] at h; simp [Except.map] at h
      · omega
    · intro h
      have hni : ¬(0 ≤ i ∧ i < (kp3.num_frame : Int)) := by omega
      simp only [get_Keypoints3d, get_Keypoints3d_single, pyInt]
      rw [if_neg hni]
      rfl
  · intro k rest e he
    simp only [get_Keypoints3d]
    rw [mapE_cons_error he]
  · intro i v h0 h1 hv
    simp only [get_Keypoints3d, get_Keypoints3d_single, pyInt]
    rw [if_pos ⟨h0, h1⟩, hv]
    rfl

/-- C6 witness: the amended statement evaluated on the `Keypoints3d`
section of the concrete container (`num_frame = 2`): index 2 fails the
bounds check, index 1 succeeds, and the omitted selector returns the
whole section. -/
theorem kp3_bounds_amended_witness :
    get_Keypoints3d fEx.keypoints3d (.one (.i 2)) = .error (.frameIndexOutOfRange 2) ∧
    get_Keypoints3d fEx.keypoints3d (.one (.i 1)) = .ok (.dataset [6]) ∧
    get_Keypoints3d fEx.keypoints3d .none = .ok (.group fEx.keypoints3d) := by
  refine ⟨((kp3_bounds_amended fEx.keypoints3d).1 2).mpr (by decide), ?_,
    (kp3_bounds_amended fEx.keypoints3d).2.1⟩
  exact (kp3_bounds_amended fEx.keypoints3d).2.2.2 1 [6] (by decide) (by decide) (by decide)

/-- C7 counterexample: on a camera that has a `Keypoints2d` subtree, the
omitted selector returns the subtree itself (the h5py group object), not
the per-frame results stacked along a new leading axis in ascending frame
order, refuting the claim that the omitted mode stacks like the image
accessor does. -/
theorem kp2_selector_counterexample :
    get_Keypoints2d fEx (.s "18") .none = .ok (some (.group [(0, [1, 2]), (1, [3, 4])])) ∧
    (Except.ok (some (KP2Res.group [(0, [1, 2]), (1, [3, 4])])) :
        Except PyErr (Option KP2Res)) ≠
      .ok (some (.stack [[1, 2], [3, 4]])) := by
  decide

/-- With the camera subtree present, a scalar `get_Keypoints2d` call can
only return a stored dataset (never the missing-camera `None`). -/
theorem kp2_single_some {f : SMCFile} {C k : PyKey} {sub : List (Nat × H5Arr)}
    {o : Option H5Arr}
    (hin : pyStr C ∈ kp2CamList)
    (hsub : lookupA f.keypoints2d (pyStr C) = some sub)
    (h : get_Keypoints2d_single f C k = .ok o) :
    ∃ v : H5Arr, o = some v ∧ lookupF sub (pyStr k) = some v := by
  simp only [get_Keypoints2d_single] at h
  rw [if_pos hin] at h
  simp only [hsub] at h
  cases hl : lookupF sub (pyStr k) with
  | none => simp [hl] at h
  | some v =>
    simp only [hl, Except.ok.injEq] at h
    refine ⟨v, ?_, rfl⟩
    simp [h]

/-- C7 amended: for an in-range camera with a `Keypoints2d` subtree, the
scalar selector returns the stored per-frame dataset and the explicit-list
selector returns the per-frame results stacked in caller order, but the
omitted selector does not mirror the image accessor: it returns the whole
camera subtree (the h5py group) rather than a stack in ascending frame
order. -/
theorem kp2_selector_amended (f : SMCFile) (C : PyKey) (sub : List (Nat × H5Arr))
    (hin : pyStr C ∈ kp2CamList)
    (hsub : lookupA f.keypoints2d (pyStr C) = some sub) :
    (get_Keypoints2d f C .none = .ok (some (.group sub))) ∧
    (∀ (k : PyKey) (v : H5Arr), lookupF sub (pyStr k) = some v →
      get_Keypoints2d f C (.one k) = .ok (some (.dataset v))) ∧
    (∀ (L : List PyKey) (rs : List H5Arr),
      get_Keypoints2d f C (.list L) = .ok (some (.stack rs)) →
      rs.length = L.length ∧
      (∀ (i : Nat) (k : PyKey), L[i]? = some k →
        ∃ v : H5Arr, get_Keypoints2d_single f C k = .ok (some v) ∧
          lookupF sub (pyStr k) = some v ∧ rs[i]? = some v)) := by
  refine ⟨?_, ?_, ?_⟩
  · simp only [get_Keypoints2d]
    rw [if_pos hin]
    simp only [hsub]
  · intro k v hv
    have hs : get_Keypoints2d_single f C k = .ok (some v) := by
      simp only [get_Keypoints2d_single]
      rw [if_pos hin]
      simp [hsub, hv]
    simp only [get_Keypoints2d]
    rw [if_pos hin]
    simp [hsub, hs, Except.map]
  · intro L rs h
    simp only [get_Keypoints2d] at h
    rw [if_pos hin] at h
    simp only [hsub] at h
    cases hm : mapE (fun fi => get_Keypoints2d_single f C fi) L with
    | error e => simp [hm] at h
    | ok rs0 =>
      simp only [hm] at h
      have hrs : rs = rs0.map optToArr := by
        cases rs0 with
        | nil => simp [npStackK, Except.map] at h
        | cons a tl =>
          simp only [List.map_cons, npStackK, Except.map, Except.ok.injEq,
            Option.some.injEq, KP2Res.stack.injEq] at h
          exact h.symm
      constructor
      · rw [hrs, List.length_map, mapE_ok_length hm]
      · intro i k hk
        obtain ⟨o, ho, hg⟩ := mapE_ok_get hm i k hk
        obtain ⟨v, hov, hlv⟩ := kp2_single_some hin hsub hg
        refine ⟨v, by rw [hg, hov], hlv, ?_⟩
        rw [hrs, List.getElem?_map, ho, hov]
        rfl

/-- C7 witness: the amended statement on the concrete container, camera
`18`: the omitted selector yields the subtree and a scalar selector yields
the stored dataset. -/
theorem kp2_selector_amended_witness :
    get_Keypoints2d fEx (.s "18") .none = .ok (some (.group [(0, [1, 2]), (1, [3, 4])])) ∧
    get_Keypoints2d fEx (.s "18") (.one (.i 1)) = .ok (some (.dataset [3, 4])) := by
  have h := kp2_selector_amended fEx (.s "18") [(0, [1, 2]), (1, [3, 4])]
    (by decide) (by decide)
  exact ⟨h.1, h.2.1 (.i 1) [3, 4] (by decide)⟩

/-- C8: `get_Keypoints2d` fails with the invalid-camera error for every
camera id outside the two-digit range `"18"`–`"32"` (whatever the
selector), and for an in-range camera without a stored subtree it returns
the explicit missing result `None` — a success value, never an error. -/
theorem kp2_validation (f : SMCFile) :
    kp2CamList = ["18", "19", "20", "21", "22", "23", "24", "25",
      "26", "27", "28", "29", "30", "31", "32"] ∧
    (∀ (C : PyKey) (sel : FrameSel), pyStr C ∉ kp2CamList →
      get_Keypoints2d f C sel = .error (.invalidCameraId (pyStr C))) ∧
    (∀ (C : PyKey) (sel : FrameSel), pyStr C ∈ kp2CamList →
      lookupA f.keypoints2d (pyStr C) = none →
      get_Keypoints2d f C sel = .ok none) ∧
    (∀ (C : PyKey) (sel : FrameSel) (e : PyErr), pyStr C ∈ kp2CamList →
      lookupA f.keypoints2d (pyStr C) = none →
      get_Keypoints2d f C sel ≠ .error e) := by
  refine ⟨by decide, ?_, ?_, ?_⟩
  · intro C sel hC
    simp only [get_Keypoints2d]
    rw [if_neg hC]
  · intro C sel hC hnone
    simp only [get_Keypoints2d]
    rw [if_pos hC, hnone]
  · intro C sel e hC hnone
    simp only [get_Keypoints2d]
    rw [if_pos hC, hnone]
    simp

/-- C8 witness: camera `"00"` (outside the detection range) fails with the
invalid-camera error; camera `20` (in range, no subtree stored in the
concrete container) returns the explicit missing result. -/
theorem kp2_validation_witness :
    get_Keypoints2d fEx (.s "00") .none = .error (.invalidCameraId "00") ∧
    get_Keypoints2d fEx (.i 20) .none = .ok none :=
  ⟨(kp2_validation fEx).2.1 (.s "00") .none (by decide),
   (kp2_validation fEx).2.2.1 (.i 20) .none (by decide) (by decide)⟩

/-- C9: `get_audio` checks the naming convention on the cached
performance-part label before any container access — with no audio marker
in the first underscore-delimited token it returns the explicit absent
result `None` whatever the container state (even closed); otherwise it
returns the object stored at `Camera/00/audio` unchanged, with no
decoding. -/
theorem get_audio_marker (r : Reader) :
    (hasAudioMarker r.performance_part = false →
      ∀ s' : Option SMCFile, get_audio { r with smc := s' } = .ok none) ∧
    (∀ (f : SMCFile) (cam00 : List (String × CamChild)) (d : CamChild),
      hasAudioMarker r.performance_part = true →
      r.smc = some f → lookupA f.camera "00" = some cam00 →
      lookupA cam00 "audio" = some d →
      get_audio r = .ok (some d)) := by
  constructor
  · intro h s'
    simp [get_audio, h]
  · intro f cam00 d hmark hsmc h00 haudio
    simp [get_audio, hmark, hsmc, h00, haudio]

/-- C9 witness: `rNoAudio` (no marker, container already closed) yields
the absent result; on `rEx` the stored audio dataset comes back
unchanged. -/
theorem get_audio_marker_witness :
    get_audio rNoAudio = .ok none ∧
    get_audio rEx = .ok (some (.audioData ⟨[1, 2, 3], 48000⟩)) := by
  constructor
  · exact (get_audio_marker rNoAudio).1 (by decide) none
  · exact (get_audio_marker rEx).2 fEx camEx (.audioData ⟨[1, 2, 3], 48000⟩)
      (by decide) rfl (by decide) (by decide)

/-- C10: with the empty list as explicit frame selector, the batch loop
collects no per-frame results and `np.stack` raises on the empty
sequence, for `get_img` (any stored camera and image type), for
`get_Keypoints2d` (any in-range camera with a subtree), and for
`get_Keypoints3d` unconditionally. -/
theorem empty_list_stack_error (dec : Bytes → Img3) (f : SMCFile)
    (C C2 : PyKey) (ity : String)
    (cam : List (String × CamChild)) (child : CamChild) (sub : List (Nat × H5Arr))
    (hc : lookupA f.camera (pyStr C) = some cam)
    (ht : lookupA cam ity = some child)
    (h2 : pyStr C2 ∈ kp2CamList)
    (hs : lookupA f.keypoints2d (pyStr C2) = some sub) :
    get_img dec f C ity (.list []) = .error .stackEmpty ∧
    get_Keypoints2d f C2 (.list []) = .error .stackEmpty ∧
    (∀ kp3 : KP3Section, get_Keypoints3d kp3 (.list []) = .error .stackEmpty) := by
  refine ⟨?_, ?_, fun kp3 => rfl⟩
  · simp only [get_img, hc, ht]
    rfl
  · simp only [get_Keypoints2d]
    rw [if_pos h2]
    simp only [hs]
    rfl

/-- C10 witness: the empty-list selector on the concrete container fails
with the empty-stack error in all three accessors. -/
theorem empty_list_stack_error_witness :
    get_img decEx fEx (.s "00") "mask" (.list []) = .error .stackEmpty ∧
    get_Keypoints2d fEx (.s "18") (.list []) = .error .stackEmpty ∧
    get_Keypoints3d fEx.keypoints3d (.list []) = .error .stackEmpty := by
  have h := empty_list_stack_error decEx fEx (.s "00") (.s "18") "mask" camEx
    (.frames [(1, [40]), (0, [30])]) [(0, [1, 2]), (1, [3, 4])]
    (by decide) (by decide) (by decide) (by decide)
  exact ⟨h.1, h.2.1, h.2.2 fEx.keypoints3d⟩

/-- A successful `np.stack` of a successful batch loop: the batch length
is the selector-list length and the `i`-th slice is the per-frame result
of the `i`-th selector. -/
theorem npStack_mapE_elems {A : Type} {single : A → Except PyErr SingleImg}
    {xs : List A} {rs : List SingleImg} {res : ImgRes}
    (hm : mapE single xs = .ok rs) (hst : npStackImg rs = .ok res) :
    batchLen res = some xs.length ∧
    ∀ (i : Nat) (x : A), xs[i]? = some x →
      ∃ s : SingleImg, single x = .ok s ∧ sliceOf res i = some s := by
  rcases npStackImg_ok hst with ⟨l, hres, hmap⟩ | ⟨l, hres, hmap⟩
  · subst hres
    constructor
    · have hlen := mapE_ok_length hm
      rw [hmap] at hlen
      simp only [List.length_map] at hlen
      simp [batchLen, hlen]
    · intro i x hx
      obtain ⟨y, hy, hgy⟩ := mapE_ok_get hm i x hx
      rw [hmap, List.getElem?_map] at hy
      cases hli : l[i]? with
      | none => rw [hli] at hy; simp at hy
      | some img =>
        rw [hli] at hy
        simp only [Option.map_some', Option.some.injEq] at hy
        exact ⟨y, hgy, by simp [sliceOf, hli, ← hy]⟩
  · subst hres
    constructor
    · have hlen := mapE_ok_length hm
      rw [hmap] at hlen
      simp only [List.length_map] at hlen
      simp [batchLen, hlen]
    · intro i x hx
      obtain ⟨y, hy, hgy⟩ := mapE_ok_get hm i x hx
      rw [hmap, List.getElem?_map] at hy
      cases hli : l[i]? with
      | none => rw [hli] at hy; simp at hy
      | some img =>
        rw [hli] at hy
        simp only [Option.map_some', Option.some.injEq] at hy
        exact ⟨y, hgy, by simp [sliceOf, hli, ← hy]⟩

/-- C1: for a stored mask frame, `get_img` returns a single-channel (2-D)
array whose every element is the per-pixel maximum over the channels of
the image obtained by decoding the same encoded bytes as a color image,
cast to 8 bits (so every element is below 256). -/
theorem get_img_mask_channel_max (dec : Bytes → Img3) (f : SMCFile) (C F : PyKey)
    (cam : List (String × CamChild)) (fl : List (Nat × Bytes)) (bs : Bytes)
    (hc : lookupA f.camera (pyStr C) = some cam)
    (ht : lookupA cam "mask" = some (.frames fl))
    (hf : lookupF fl (pyStr F) = some bs) :
    ∃ M : Img2,
      get_img dec f C "mask" (.one F) = .ok (.single (.mask M)) ∧
      M.length = (dec bs).length ∧
      (∀ (i : Nat) (row : List (List Nat)), (dec bs)[i]? = some row →
        ∃ mrow : List Nat, M[i]? = some mrow ∧ mrow.length = row.length ∧
          (∀ (j : Nat) (px : List Nat), row[j]? = some px →
            mrow[j]? = some ((px.foldl max 0) % 256) ∧
            (px.foldl max 0) % 256 < 256)) := by
  refine ⟨maskCollapse (dec bs), ?_, by simp [maskCollapse], ?_⟩
  · simp only [get_img, get_img_single, hc, ht, hf]
    rfl
  · intro i row hr
    refine ⟨row.map (fun px => (px.foldl max 0) % 256), ?_, by simp, ?_⟩
    · simp [maskCollapse, List.getElem?_map, hr]
    · intro j px hp
      refine ⟨by simp [List.getElem?_map, hp], Nat.mod_lt _ (by norm_num)⟩

/-- C1 witness: the mask accessor evaluated on frame 0 of camera `00` of
the concrete container, with the concrete decode function `decEx`. -/
theorem get_img_mask_channel_max_witness :
    lookupF [(1, [40]), (0, [30])] "0" = some [30] ∧
    (∃ M : Img2,
      get_img decEx fEx (.s "00") "mask" (.one (.i 0)) = .ok (.single (.mask M)) ∧
      M.length = (decEx [30]).length ∧
      (∀ (i : Nat) (row : List (List Nat)), (decEx [30])[i]? = some row →
        ∃ mrow : List Nat, M[i]? = some mrow ∧ mrow.length = row.length ∧
          (∀ (j : Nat) (px : List Nat), row[j]? = some px →
            mrow[j]? = some ((px.foldl max 0) % 256) ∧
            (px.foldl max 0) % 256 < 256))) :=
  ⟨by decide,
   get_img_mask_channel_max decEx fEx (.s "00") (.i 0) camEx [(1, [40]), (0, [30])] [30]
     (by decide) (by decide) (by decide)⟩

/-- C2: a successful `get_img` batch with the omitted selector has one
slice per stored frame key, the keys are taken in ascending numeric order
(a sorted permutation of the stored keys), and the `i`-th slice equals the
single-frame result at the `i`-th key of that ordering; with an explicit
list the stack follows the caller-given order instead. -/
theorem get_img_batch_order (dec : Bytes → Img3) (f : SMCFile) (C : PyKey) (T : String)
    (cam : List (String × CamChild)) (fl : List (Nat × Bytes))
    (hc : lookupA f.camera (pyStr C) = some cam)
    (ht : lookupA cam T = some (.frames fl)) :
    (∀ res : ImgRes, get_img dec f C T .none = .ok res →
      batchLen res = some fl.length ∧
      List.Sorted (fun a b => a ≤ b) (sortedIds fl) ∧
      (sortedIds fl).Perm (fl.map (fun p => p.1)) ∧
      (∀ (i n : Nat), (sortedIds fl)[i]? = some n →
        ∃ s : SingleImg, get_img dec f C T (.one (.i (Int.ofNat n))) = .ok (.single s) ∧
          sliceOf res i = some s)) ∧
    (∀ (L : List PyKey) (res : ImgRes), get_img dec f C T (.list L) = .ok res →
      batchLen res = some L.length ∧
      (∀ (i : Nat) (k : PyKey), L[i]? = some k →
        ∃ s : SingleImg, get_img dec f C T (.one k) = .ok (.single s) ∧
          sliceOf res i = some s)) := by
  have hone : ∀ (k : PyKey) (s : SingleImg), get_img_single dec f C T k = .ok s →
      get_img dec f C T (.one k) = .ok (.single s) := by
    intro k s hs
    simp only [get_img, hc, ht]
    rw [hs]
    rfl
  constructor
  · intro res hres
    simp only [get_img, hc, ht] at hres
    split at hres
    · simp at hres
    · rename_i rs hm
      have h := npStack_mapE_elems hm hres
      have hslen : (sortedIds fl).length = fl.length := by
        simp [sortedIds, (List.perm_insertionSort (fun a b => a ≤ b)
          (fl.map (fun p => p.1))).length_eq]
      refine ⟨by rw [h.1, hslen], ?_, ?_, ?_⟩
      · exact List.sorted_insertionSort (fun a b => a ≤ b) (fl.map (fun p => p.1))
      · exact List.perm_insertionSort (fun a b => a ≤ b) (fl.map (fun p => p.1))
      · intro i n hn
        obtain ⟨s, hgs, hsl⟩ := h.2 i n hn
        exact ⟨s, hone (.i (Int.ofNat n)) s hgs, hsl⟩
  · intro L res hres
    simp only [get_img, hc, ht] at hres
    split at hres
    · simp at hres
    · rename_i rs hm
      have h := npStack_mapE_elems hm hres
      refine ⟨h.1, ?_⟩
      intro i k hk
      obtain ⟨s, hgs, hsl⟩ := h.2 i k hk
      exact ⟨s, hone k s hgs, hsl⟩

/-- C2 witness: the omitted-selector batch over the concrete container's
mask frames (stored with keys out of order) is stacked in ascending key
order and its first slice is the single-frame result for frame 0. -/
theorem get_img_batch_order_witness :
    get_img decEx fEx (.s "00") "mask" .none = .ok (.batchMask [[[44]], [[44]]]) ∧
    batchLen (ImgRes.batchMask [[[44]], [[44]]]) = some 2 ∧
    (∃ s : SingleImg,
      get_img decEx fEx (.s "00") "mask" (.one (.i 0)) = .ok (.single s) ∧
      sliceOf (ImgRes.batchMask [[[44]], [[44]]]) 0 = some s) := by
  have h := (get_img_batch_order decEx fEx (.s "00") "mask" camEx [(1, [40]), (0, [30])]
    (by decide) (by decide)).1 (.batchMask [[[44]], [[44]]]) (by decide)
  exact ⟨by decide, h.1, h.2.2.2 0 0 (by decide)⟩
